import Mathlib

/-!
Verification of the loop-idiom recognition engine.

Shallow embedding of the loop-idiom recognition and rewriting engine
(`LoopIdiomRecognize`).  Pure data of the pass (SCEV expressions, mod/ref
summaries, the store classifier, the per-loop drivers) is translated
directly from the source; the collaborator analyses the source consumes
(alias analysis, ScalarEvolution availability/invariance queries, SCEV
expansion safety, target-library availability) are threaded in as oracle
parameters, mirroring the narrow collaborator interfaces the pass uses.
-/

namespace LoopIdiom

/-- Mini-AST for ScalarEvolution expressions, covering the node shapes the
pass builds or inspects.  `constant` is a `SCEVConstant` carrying its APInt
bit width and (signed) value; `unknown` is a `SCEVUnknown` leaf naming an
already-materialized IR value; `addRec` is a `SCEVAddRecExpr`
`{start,+,step}<loop>` where `extraSteps` counts any operands beyond the
first step (so `isAffine` ⇔ `extraSteps = 0`, matching
`getNumOperands() == 2`). -/
inductive SCEV where
  | constant (w : Nat) (v : Int)
  | unknown (w : Nat) (id : Nat)
  | addRec (start step : SCEV) (loopId : Nat) (extraSteps : Nat)
  | add (a b : SCEV)
  | mul (a b : SCEV)
  | sub (a b : SCEV)
  | zext (w : Nat) (a : SCEV)
  | trunc (w : Nat) (a : SCEV)
  | couldNotCompute
  deriving DecidableEq, Repr

/-- Bit width of the type of a SCEV expression (binary operators require
equally-typed operands and keep the left width). -/
def SCEV.width : SCEV → Nat
  | .constant w _ => w
  | .unknown w _ => w
  | .addRec s _ _ _ => s.width
  | .add a _ => a.width
  | .mul a _ => a.width
  | .sub a _ => a.width
  | .zext w _ => w
  | .trunc w _ => w
  | .couldNotCompute => 0

/-- Evaluation of a (recurrence-free) SCEV expression: every node denotes
its value reduced modulo `2^width`, with `env` giving the values of
`unknown` leaves.  `addRec` nodes are iteration-dependent and are never
evaluated by the properties below; they denote their start value here. -/
def SCEV.eval (env : Nat → Int) : SCEV → Int
  | .constant w v => v % ((2 : Int) ^ w)
  | .unknown w id => env id % ((2 : Int) ^ w)
  | .addRec s _ _ _ => s.eval env
  | .add a b => (a.eval env + b.eval env) % ((2 : Int) ^ a.width)
  | .mul a b => (a.eval env * b.eval env) % ((2 : Int) ^ a.width)
  | .sub a b => (a.eval env - b.eval env) % ((2 : Int) ^ a.width)
  | .zext _ a => a.eval env
  | .trunc w a => a.eval env % ((2 : Int) ^ w)
  | .couldNotCompute => 0

/-- Model of `ScalarEvolution::getTruncateOrZeroExtend`. -/
def truncateOrZeroExtend (e : SCEV) (w : Nat) : SCEV :=
  if e.width = w then e
  else if e.width < w then .zext w e
  else .trunc w e

/-- Model of `ScalarEvolution::getNoopOrZeroExtend` (callers guarantee
`e.width ≤ w`). -/
def noopOrZeroExtend (e : SCEV) (w : Nat) : SCEV :=
  if e.width = w then e else .zext w e

/-- Model of `dyn_cast<SCEVConstant>(BECount)` with `getAPInt() == 0`. -/
def SCEV.isConstZero : SCEV → Bool
  | .constant w v => v % ((2 : Int) ^ w) = 0
  | _ => false

/-- Model of `SCEVAddRecExpr::getStart` (callers have already established the
expression is an add-recurrence). -/
def SCEV.addRecStart : SCEV → SCEV
  | .addRec s _ _ _ => s
  | e => e

/-- Model of `SCEVAddRecExpr::getOperand(1)`, the step of the recurrence. -/
def SCEV.addRecStep : SCEV → SCEV
  | .addRec _ st _ _ => st
  | _ => .couldNotCompute

/-- Model of `getStoreStride`: `cast<SCEVConstant>(StoreEv->getOperand(1))->getAPInt()`
(callers have already established that the step is a constant). -/
def getStoreStride (storeEv : SCEV) : Int :=
  match storeEv.addRecStep with
  | .constant _ v => v
  | _ => 0

/-- Model of `llvm::ModRefInfo` restricted to the four mod/ref states the pass
inspects. -/
inductive ModRefInfo where
  | NoModRef
  | Ref
  | Mod
  | ModRef
  deriving DecidableEq, Repr

/-- Model of `llvm::intersectModRef`: bitwise intersection of the mod and ref bits. -/
def intersectModRef : ModRefInfo → ModRefInfo → ModRefInfo
  | .NoModRef, _ => .NoModRef
  | _, .NoModRef => .NoModRef
  | .ModRef, x => x
  | x, .ModRef => x
  | .Ref, .Ref => .Ref
  | .Ref, .Mod => .NoModRef
  | .Mod, .Ref => .NoModRef
  | .Mod, .Mod => .Mod

/-- Model of `llvm::isModOrRefSet`. -/
def isModOrRefSet : ModRefInfo → Bool
  | .NoModRef => false
  | _ => true

/-- A `MemoryLocation`: the (symbolic) pointer plus a `LocationSize`
(`none` = `LocationSize::unknown()`). -/
structure MemLoc where
  ptr : SCEV
  size : Option Nat
  deriving DecidableEq, Repr

/-- Record of one emitted fill call (`memset` / `memset_pattern16`): the
store address recurrence, the byte size written per iteration, and the
original stores the call replaces. -/
structure MemsetCall where
  ev : SCEV
  storeSize : Nat
  stores : List Nat
  deriving DecidableEq, Repr

/-- Record of one emitted copy call (`memcpy` /
`memcpy.element.unordered.atomic`). -/
structure MemcpyCall where
  storeId : Nat
  storeSize : Nat
  atomic : Bool
  deriving DecidableEq, Repr

/-- Idiom rewrites applied on the noncountable path. -/
inductive IdiomRewrite where
  | bcmp
  | popcount
  | ffs
  deriving DecidableEq, Repr

/-- Observable state of the function being rewritten: instructions
synthesized in the loop preheader (in program order), instructions deleted
from the loop, the fill/copy calls emitted so far, and the noncountable
rewrites applied.  `nextId` numbers freshly created instructions. -/
structure IRState where
  preheaderInsts : List Nat
  nextId : Nat
  deletedInsts : List Nat
  memsetCalls : List MemsetCall
  memcpyCalls : List MemcpyCall
  noncountRewrites : List IdiomRewrite
  deriving DecidableEq, Repr

/-- Result of `SCEVExpander::expandCodeFor`: either an already-available IR
value was reused, or a fresh instruction was emitted at the insertion
point. -/
inductive ExpVal where
  | existing (id : Nat)
  | fresh (id : Nat)
  deriving DecidableEq, Repr

/-- Model of `SCEVExpander::expandCodeFor` at the preheader terminator: a
`SCEVUnknown` is an already-materialized value and emits nothing; any
other expression shape requires emitting code into the preheader. -/
def expandCodeFor (st : IRState) (e : SCEV) : IRState × ExpVal :=
  match e with
  | .unknown _ id => (st, .existing id)
  | _ =>
      ({ st with preheaderInsts := st.preheaderInsts ++ [st.nextId],
                 nextId := st.nextId + 1 },
       .fresh st.nextId)

/-- Model of `RecursivelyDeleteTriviallyDeadInstructions` applied to the result of an
expansion: a freshly emitted (dead, use-free) instruction is removed from
the preheader; a reused pre-existing value is left alone. -/
def removeExpanded (st : IRState) (v : ExpVal) : IRState :=
  match v with
  | .existing _ => st
  | .fresh id => { st with preheaderInsts := st.preheaderInsts.filter (· ≠ id) }

/-- Target-library availability flags computed at the top of `runOnLoop`
(`TLI->has(LibFunc_...)`) plus the current loop's identity. -/
structure LIRContext where
  curLoopId : Nat
  hasMemset : Bool
  hasMemsetPattern : Bool
  hasMemcpy : Bool
  hasMemCmp : Bool
  hasBCmp : Bool

/-- Environment of the countable-loop rewriter: the collaborator analyses
(alias oracle, expansion-safety oracle, ScalarEvolution facts) and the
loop/target facts the rewriter reads. -/
structure LIREnv where
  curLoopId : Nat
  /-- `AA.getModRefInfo(&I, StoreLoc)` for each instruction id. -/
  aa : Nat → MemLoc → ModRefInfo
  /-- Ids of all instructions in the loop's blocks, in scan order. -/
  loopInsts : List Nat
  /-- The loop's backedge-taken count, `SE->getBackedgeTakenCount`. -/
  becount : SCEV
  /-- Width of the pointer-sized integer type for the address space. -/
  intPtrWidth : Nat
  /-- `isSafeToExpand(S, *SE)`. -/
  safeToExpand : SCEV → Bool
  /-- `SE->isLoopEntryGuardedByCond(L, ICMP_NE, BECount, -1)`. -/
  guardedNeMinus1 : Bool
  /-- `F.hasOptSize()`. -/
  hasOptSize : Bool
  /-- The `UseLIRCodeSizeHeurs` toggle. -/
  useLIRCodeSizeHeurs : Bool
  /-- `CurLoop->getNumBlocks()`. -/
  numBlocks : Nat
  /-- `CurLoop->getParentLoop() != nullptr`. -/
  hasParentLoop : Bool
  /-- `TTI->getAtomicMemIntrinsicMaxElementSize()`. -/
  maxAtomicElementSize : Nat
  /-- `SafetyInfo.anyBlockMayThrow()` for the current loop. -/
  anyBlockMayThrow : Bool
  /-- Blocks of the loop, in `CurLoop->getBlocks()` order. -/
  blocks : List Nat
  /-- `LI->getLoopFor(BB)`: innermost loop id containing each block. -/
  loopForBlock : Nat → Nat
  /-- `isConsecutiveAccess(SL[i], SL[k], *DL, *SE, false)` keyed by store
  instruction ids. -/
  isConsecutive : Nat → Nat → Bool

/-- Model of `ApplyCodeSizeHeuristics` as computed in `runOnLoop`. -/
def applyCodeSizeHeuristics (env : LIREnv) : Bool :=
  env.hasOptSize && env.useLIRCodeSizeHeurs

/-- Model of `mayLoopAccessLocation`: true if any instruction of the loop outside the
ignore set may access the strided location `ptr` in one of the `access`
modes.  When the trip count is a compile-time constant the location size is
refined to `(BECount+1)*StoreSize`, otherwise it is unknown. -/
def mayLoopAccessLocation (aa : Nat → MemLoc → ModRefInfo) (loopInsts : List Nat)
    (ptr : SCEV) (access : ModRefInfo) (becount : SCEV) (storeSize : Nat)
    (ignored : List Nat) : Bool :=
  let accessSize : Option Nat :=
    match becount with
    | .constant w v => some (((v % ((2 : Int) ^ w)).toNat + 1) * storeSize)
    | _ => none
  let storeLoc : MemLoc := ⟨ptr, accessSize⟩
  loopInsts.any fun i =>
    !(ignored.contains i) && isModOrRefSet (intersectModRef (aa i storeLoc) access)

/-- Model of `getStartForNegStride`: for a negative stride the recurrence start is the
end of the region, so the base is `Start - BECount*StoreSize`. -/
def getStartForNegStride (start becount : SCEV) (intPtrW : Nat) (storeSize : Nat) :
    SCEV :=
  let index := truncateOrZeroExtend becount intPtrW
  let index := if storeSize ≠ 1 then .mul index (.constant intPtrW storeSize) else index
  .sub start index

/-- Model of `getNumBytes`: byte count `(BECount+1)*StoreSize` as a SCEV in the
pointer-width type, folding the `+1` inside the zero-extension when the
loop entry is guarded against a `-1` trip count. -/
def getNumBytes (becount : SCEV) (intPtrW : Nat) (storeSize : Nat)
    (guardedNeMinus1 : Bool) : SCEV :=
  let numBytesS :=
    if becount.width < intPtrW ∧ guardedNeMinus1 then
      .zext intPtrW (.add becount (.constant becount.width 1))
    else
      .add (truncateOrZeroExtend becount intPtrW) (.constant intPtrW 1)
  if storeSize ≠ 1 then .mul numBytesS (.constant intPtrW storeSize) else numBytesS

/-- Model of `avoidLIRForMultiBlockLoop`: when optimizing for size, skip idiom
rewriting of a multi-block top-level loop unless it is a whole-loop
memset. -/
def avoidLIRForMultiBlockLoop (env : LIREnv) (isMemset isLoopMemset : Bool) : Bool :=
  applyCodeSizeHeuristics env && decide (env.numBlocks > 1) &&
    (!env.hasParentLoop && (!isMemset || !isLoopMemset))

/-- The region start computed by `processLoopStridedStore`:
`Ev->getStart()`, adjusted for negative strides. -/
def stridedStoreStart (env : LIREnv) (storeSize : Nat) (ev : SCEV)
    (negStride : Bool) : SCEV :=
  if negStride then
    getStartForNegStride ev.addRecStart env.becount env.intPtrWidth storeSize
  else ev.addRecStart

/-- Model of `processLoopStridedStore`: try to rewrite the strided stores `stores`
(jointly writing `storeSize` bytes per iteration at the address recurrence
`ev`) into a single fill call in the preheader.  Returns the updated state
and whether the rewrite fired. -/
def processLoopStridedStore (env : LIREnv) (st : IRState) (storeSize : Nat)
    (stores : List Nat) (ev : SCEV) (negStride isLoopMemset : Bool) :
    IRState × Bool :=
  let start := stridedStoreStart env storeSize ev negStride
  if !env.safeToExpand start then (st, false)
  else
    let st1 := (expandCodeFor st start).1
    let basePtr := (expandCodeFor st start).2
    if mayLoopAccessLocation env.aa env.loopInsts start .ModRef env.becount storeSize
        stores then
      (removeExpanded st1 basePtr, false)
    else if avoidLIRForMultiBlockLoop env true isLoopMemset then (st1, false)
    else
      let numBytesS := getNumBytes env.becount env.intPtrWidth storeSize
        env.guardedNeMinus1
      if !env.safeToExpand numBytesS then (st1, false)
      else
        let st2 := (expandCodeFor st1 numBytesS).1
        ({ st2 with
            memsetCalls := st2.memsetCalls ++ [⟨ev, storeSize, stores⟩],
            deletedInsts := st2.deletedInsts ++ stores },
         true)

/-- A classified copy candidate handed to `processLoopStoreOfLoopLoad`: a
store of a same-strided load, with the facts the rewriter reads. -/
structure CpyStore where
  id : Nat
  storeEv : SCEV
  loadEv : SCEV
  storeSize : Nat
  storeAtomic : Bool
  loadAtomic : Bool
  storeAlign : Nat
  loadAlign : Nat
  deriving DecidableEq, Repr

/-- Model of `processLoopStoreOfLoopLoad`: try to rewrite a store-of-load pair into a
copy call.  The destination region must not be read or written by anything
else in the loop, and the source region must not be written (reads are
fine); an atomic access additionally requires alignment at least the
element size and an element size within the target's atomic-copy
maximum.  `cpyNegStride` is the `NegStride` flag it computes from the
store stride. -/
def cpyNegStride (si : CpyStore) : Bool :=
  (si.storeSize : Int) = -(getStoreStride si.storeEv)

/-- The destination region start computed by `processLoopStoreOfLoopLoad`:
`StoreEv->getStart()`, adjusted for negative strides. -/
def cpyDestStart (env : LIREnv) (si : CpyStore) : SCEV :=
  if cpyNegStride si then
    getStartForNegStride si.storeEv.addRecStart env.becount env.intPtrWidth
      si.storeSize
  else si.storeEv.addRecStart

/-- The source region start computed by `processLoopStoreOfLoopLoad`:
`LoadEv->getStart()`, adjusted for negative strides. -/
def cpyLoadStart (env : LIREnv) (si : CpyStore) : SCEV :=
  if cpyNegStride si then
    getStartForNegStride si.loadEv.addRecStart env.becount env.intPtrWidth
      si.storeSize
  else si.loadEv.addRecStart

def processLoopStoreOfLoopLoad (env : LIREnv) (st : IRState) (si : CpyStore) :
    IRState × Bool :=
  let strStart := cpyDestStart env si
  let st1 := (expandCodeFor st strStart).1
  let storeBasePtr := (expandCodeFor st strStart).2
  if mayLoopAccessLocation env.aa env.loopInsts strStart .ModRef env.becount
      si.storeSize [si.id] then
    (removeExpanded st1 storeBasePtr, false)
  else
    let ldStart := cpyLoadStart env si
    let st2 := (expandCodeFor st1 ldStart).1
    let loadBasePtr := (expandCodeFor st1 ldStart).2
    if mayLoopAccessLocation env.aa env.loopInsts ldStart .Mod env.becount
        si.storeSize [si.id] then
      (removeExpanded (removeExpanded st2 loadBasePtr) storeBasePtr, false)
    else if avoidLIRForMultiBlockLoop env false false then (st2, false)
    else
      let numBytesS := getNumBytes env.becount env.intPtrWidth si.storeSize
        env.guardedNeMinus1
      let st3 := (expandCodeFor st2 numBytesS).1
      if !si.storeAtomic && !si.loadAtomic then
        ({ st3 with
            memcpyCalls := st3.memcpyCalls ++ [⟨si.id, si.storeSize, false⟩],
            deletedInsts := st3.deletedInsts ++ [si.id] },
         true)
      else if min si.storeAlign si.loadAlign < si.storeSize then (st3, false)
      else if si.storeSize > env.maxAtomicElementSize then (st3, false)
      else
        ({ st3 with
            memcpyCalls := st3.memcpyCalls ++ [⟨si.id, si.storeSize, true⟩],
            deletedInsts := st3.deletedInsts ++ [si.id] },
         true)

/-- The comparison token for a candidate store's value: the result of
`isBytewiseValue` (for `ForMemset::Yes`) or `getMemSetPatternValue` (for
`ForMemset::No`), abstracted to an equality-comparable value with `undef`
standing for an `UndefValue` result (which merges with any other value). -/
inductive MergeVal where
  | undef
  | val (n : Nat)
  deriving DecidableEq, Repr

/-- One store of a same-base candidate group handed to `processLoopStores`:
its instruction id, its (affine, constant-stride) address recurrence, its
store size in bytes, and its splat/pattern token. -/
structure MSStore where
  id : Nat
  ptrEv : SCEV
  storeSize : Nat
  mergeVal : MergeVal
  deriving DecidableEq, Repr

/-- Inner search of `processLoopStores` phase one: walk the index queue
(first the successors of `i` in program order, then its predecessors) and
return the first store that has the same stride, a compatible splat/pattern
value, and is consecutive-in-memory after store `i`.  An `undef` first
value is replaced by the candidate's value before comparing. -/
def findConsecutiveTail (env : LIREnv) (sl : List MSStore) (si : MSStore)
    (firstStride : Int) : MergeVal → List Nat → Option Nat
  | _, [] => none
  | firstVal, k :: ks =>
    let sk := (sl.drop k).headD si
    let secondStride := getStoreStride sk.ptrEv
    if firstStride ≠ secondStride then
      findConsecutiveTail env sl si firstStride firstVal ks
    else
      let secondVal := sk.mergeVal
      if env.isConsecutive si.id sk.id then
        let firstVal' := if firstVal = .undef then secondVal else firstVal
        if firstVal' ≠ secondVal then
          findConsecutiveTail env sl si firstStride firstVal' ks
        else some sk.id
      else findConsecutiveTail env sl si firstStride firstVal ks

/-- Accumulated result of `processLoopStores` phase one: the `Heads` and
`Tails` set-vectors (insertion order preserved) and the
`ConsecutiveChain` map. -/
structure ChainState where
  heads : List Nat
  tails : List Nat
  chain : List (Nat × Nat)
  deriving DecidableEq, Repr

/-- Model of `SetVector`-style insert: append only if not already present. -/
def svInsert (l : List Nat) (x : Nat) : List Nat :=
  if l.contains x then l else l ++ [x]

/-- Phase one of `processLoopStores` for one index `i`: a store whose own
size matches its absolute stride becomes a head by itself; otherwise search
the index queue for a consecutive partner, recording the pair in
`Heads`/`Tails`/`ConsecutiveChain`. -/
def processLoopStoresPairStep (env : LIREnv) (sl : List MSStore)
    (acc : ChainState) (i : Nat) : ChainState :=
  let si := (sl.drop i).headD ⟨0, .couldNotCompute, 0, .undef⟩
  let firstStride := getStoreStride si.ptrEv
  if (si.storeSize : Int) = firstStride ∨ (si.storeSize : Int) = -firstStride then
    { acc with heads := svInsert acc.heads si.id }
  else
    let indexQueue := (List.range' (i + 1) (sl.length - (i + 1))) ++
      (List.range i).reverse
    match findConsecutiveTail env sl si firstStride si.mergeVal indexQueue with
    | none => acc
    | some kId =>
        { heads := svInsert acc.heads si.id,
          tails := svInsert acc.tails kId,
          chain := acc.chain ++ [(si.id, kId)] }

/-- Store size of the store with instruction id `i` in the group. -/
def msStoreSizeOf (sl : List MSStore) (i : Nat) : Nat :=
  ((sl.find? (fun s => s.id = i)).map (·.storeSize)).getD 0

/-- Walk of the `ConsecutiveChain` map from a head: collect the ids of the
chain's members, stopping at an already-transformed store or at the end of
the chain (`fuel` bounds the walk; `sl.length + 1` suffices). -/
def collectChain (chainSt : ChainState) (transformed : List Nat) :
    Nat → Nat → List Nat
  | 0, _ => []
  | fuel + 1, i =>
    if chainSt.tails.contains i ∨ chainSt.heads.contains i then
      if transformed.contains i then []
      else
        i :: (match chainSt.chain.lookup i with
              | some next => collectChain chainSt transformed fuel next
              | none => [])
    else []

/-- Fold state of `processLoopStores` phase two. -/
structure MergeAcc where
  st : IRState
  changed : Bool
  transformed : List Nat
  deriving Repr

/-- Phase two of `processLoopStores` for one head `h`: collect the chain,
sum its store sizes, and merge it through `processLoopStridedStore` only
when the summed size equals the absolute stride of the head; otherwise the
chain is skipped. -/
def processLoopStoresMergeStep (env : LIREnv) (sl : List MSStore)
    (chainSt : ChainState) (acc : MergeAcc) (h : Nat) : MergeAcc :=
  if chainSt.tails.contains h then acc
  else
    let chainIds := collectChain chainSt acc.transformed (sl.length + 1) h
    let storeSize := (chainIds.map (msStoreSizeOf sl)).sum
    let hd := ((sl.find? (fun s => s.id = h)).getD ⟨0, .couldNotCompute, 0, .undef⟩)
    let stride := getStoreStride hd.ptrEv
    if (storeSize : Int) ≠ stride ∧ (storeSize : Int) ≠ -stride then acc
    else
      let negStride := (storeSize : Int) = -stride
      let r := processLoopStridedStore env acc.st storeSize chainIds hd.ptrEv
        negStride false
      if r.2 then
        { st := r.1, changed := true, transformed := acc.transformed ++ chainIds }
      else { acc with st := r.1 }

/-- Model of `processLoopStores`: find consecutive runs among the same-base candidate
stores `sl` and merge each eligible run into one fill call. -/
def processLoopStores (env : LIREnv) (st : IRState) (sl : List MSStore) :
    IRState × Bool :=
  let chainSt := (List.range sl.length).foldl (processLoopStoresPairStep env sl)
    ⟨[], [], []⟩
  let acc := chainSt.heads.foldl (processLoopStoresMergeStep env sl chainSt)
    ⟨st, false, []⟩
  (acc.st, acc.changed)

/-- Model of `llvm::AtomicOrdering` (the orderings a store/load can carry). -/
inductive AtomicOrdering where
  | notAtomic
  | unordered
  | monotonic
  | acquire
  | release
  | acqRel
  | seqCst
  deriving DecidableEq, Repr

/-- The load feeding a would-be copy candidate, as inspected by the
classifier. -/
structure LoadOperand where
  volatile : Bool
  ordering : AtomicOrdering
  ptrEv : SCEV
  deriving DecidableEq, Repr

/-- A store instruction as inspected by `isLegalStore`: its flags, the size
of its stored type, its address recurrence (as computed by ScalarEvolution),
and the value-analysis results the classifier consults
(`isBytewiseValue`, loop invariance of the splat, `getMemSetPatternValue`,
and whether the stored value is a load). -/
structure StoreInfo where
  volatile : Bool
  ordering : AtomicOrdering
  sizeInBits : Nat
  valueTyNonIntegralPtr : Bool
  nontemporal : Bool
  ptrEv : SCEV
  addressSpace : Nat
  splat : Option Nat
  splatLoopInvariant : Bool
  patternVal : Option Nat
  storedLoad : Option LoadOperand
  deriving DecidableEq, Repr

/-- Model of `StoreInst::isUnordered`: not volatile and at most unordered atomic. -/
def storeIsUnordered (si : StoreInfo) : Bool :=
  (si.ordering = .notAtomic ∨ si.ordering = .unordered) ∧ ¬si.volatile

/-- Model of `StoreInst::isSimple`: not volatile and not atomic. -/
def storeIsSimple (si : StoreInfo) : Bool :=
  ¬si.volatile ∧ si.ordering = .notAtomic

/-- Model of `LoadInst::isUnordered` for the stored operand. -/
def loadIsUnordered (li : LoadOperand) : Bool :=
  (li.ordering = .notAtomic ∨ li.ordering = .unordered) ∧ ¬li.volatile

/-- The classifier's verdict on one store. -/
inductive LegalStoreKind where
  | None
  | Memset
  | MemsetPattern
  | Memcpy
  | UnorderedAtomicMemcpy
  deriving DecidableEq, Repr

/-- Model of `isLegalStore`: reject volatile, ordered-atomic, non-integral-pointer,
non-temporal, badly-sized, or non-affine-strided stores; classify the rest
as fill, pattern-fill, or copy candidates according to the stored value and
the available primitives. -/
def isLegalStore (ctx : LIRContext) (si : StoreInfo) : LegalStoreKind :=
  if si.volatile then .None
  else if ¬storeIsUnordered si then .None
  else if si.valueTyNonIntegralPtr then .None
  else if si.nontemporal then .None
  else if si.sizeInBits % 8 ≠ 0 ∨ 2 ^ 32 ≤ si.sizeInBits then .None
  else
    match si.ptrEv with
    | .addRec _start step loopId extraSteps =>
      if loopId ≠ ctx.curLoopId ∨ extraSteps ≠ 0 then .None
      else
        match step with
        | .constant _w strideV =>
          let unorderedAtomic := storeIsUnordered si && !storeIsSimple si
          if !unorderedAtomic && ctx.hasMemset && si.splat.isSome &&
              si.splatLoopInvariant then
            .Memset
          else if !unorderedAtomic && ctx.hasMemsetPattern &&
              decide (si.addressSpace = 0) && si.patternVal.isSome then
            .MemsetPattern
          else if ctx.hasMemcpy then
            let storeSize := si.sizeInBits / 8
            if (storeSize : Int) ≠ strideV ∧ (storeSize : Int) ≠ -strideV then .None
            else
              match si.storedLoad with
              | none => .None
              | some li =>
                if li.volatile then .None
                else if ¬loadIsUnordered li then .None
                else
                  match li.ptrEv with
                  | .addRec _ lstep lloopId lextraSteps =>
                    if lloopId ≠ ctx.curLoopId ∨ lextraSteps ≠ 0 then .None
                    else if step ≠ lstep then .None
                    else if unorderedAtomic || decide (li.ordering ≠ .notAtomic) then
                      .UnorderedAtomicMemcpy
                    else .Memcpy
                  | _ => .None
          else .None
        | _ => .None
    | _ => .None

/-- ScalarEvolution facts consumed by `recognizeBCmpLoopSCEV`: the
loop-scope SCEVs of the two load pointers, the availability oracle
(`SE->isAvailableAtLoopEntry`), and the latch exit count with its type
facts. -/
structure BCmpSCEVInput where
  curLoopId : Nat
  scevForSrcA : SCEV
  scevForSrcB : SCEV
  avail : SCEV → Bool
  latchExitCount : SCEV
  ecIntOrPtrTy : Bool
  sizeTyBits : Nat

/-- Model of `recognizeBCmpLoopSCEV`: both load pointers must be affine recurrences
of the current loop with the same constant step equal to
`bcmpTyBytes`; their starts and the latch exit count must be available at
loop entry, and the exit count must fit the target size type.  Returns
`(SrcA, SrcB, Iterations)` with `Iterations = LoopExitCount + 1`. -/
def recognizeBCmpLoopSCEV (se : BCmpSCEVInput) (bcmpTyBytes : Nat) :
    Option (SCEV × SCEV × SCEV) :=
  match se.scevForSrcA with
  | .addRec sA stA lA eA =>
    match se.scevForSrcB with
    | .addRec sB stB lB eB =>
      if ¬(eA = 0 ∧ eB = 0 ∧ lA = se.curLoopId ∧ lB = se.curLoopId) then none
      else if stA ≠ stB then none
      else
        match stA with
        | .constant _w v =>
          if v ≠ (bcmpTyBytes : Int) then none
          else if sA = .couldNotCompute ∨ sB = .couldNotCompute ∨
              ¬se.avail sA ∨ ¬se.avail sB then none
          else
            let loopExitCount := se.latchExitCount
            if loopExitCount = .couldNotCompute ∨ ¬se.ecIntOrPtrTy ∨
                se.sizeTyBits < loopExitCount.width ∨ ¬se.avail loopExitCount then
              none
            else
              some (sA, sB,
                .add loopExitCount (.constant loopExitCount.width 1))
        | _ => none
    | _ => none
  | _ => none

/-- Inputs of `detectBCmpIdiom`: the structural-matcher verdicts
(`matchBCmpLoopStructure`, `matchBCmpOfLoads`,
`recognizeBCmpLoopControlFlow`), the loop shape, the compared type's bit
size, the load legality facts, and the SCEV facts. -/
structure BCmpDetectInput where
  isLoopSimplifyForm : Bool
  numBlocks : Nat
  structureMatch : Bool
  loadsMatch : Bool
  controlFlowOk : Bool
  bcmpTyBits : Nat
  loadsSimpleSameAS0 : Bool
  se : BCmpSCEVInput

/-- A successful byte-compare match: the two source regions, the byte-count
SCEV handed to the emitted call, and the element byte width. -/
structure BCmpMatch where
  srcA : SCEV
  srcB : SCEV
  nbytes : SCEV
  bytes : Nat
  deriving DecidableEq, Repr

/-- Model of `detectBCmpIdiom`: structural match of the 1–2 block compare loop, byte
divisibility of the compared width, the SCEV leg, promotion of the
iteration count to the size type, and the total byte count
`Iterations * BCmpTyBytes`. -/
def detectBCmpIdiom (inp : BCmpDetectInput) : Option BCmpMatch :=
  if ¬inp.isLoopSimplifyForm ∨ 2 < inp.numBlocks then none
  else if ¬inp.structureMatch then none
  else if ¬inp.loadsMatch then none
  else if ¬inp.controlFlowOk then none
  else if inp.bcmpTyBits % 8 ≠ 0 then none
  else
    let bcmpTyBytes := inp.bcmpTyBits / 8
    match recognizeBCmpLoopSCEV inp.se bcmpTyBytes with
    | none => none
    | some (srcA, srcB, iterations) =>
        let iterations' := noopOrZeroExtend iterations inp.se.sizeTyBits
        let nbytes : SCEV :=
          .mul iterations' (.constant inp.se.sizeTyBits bcmpTyBytes)
        if ¬inp.loadsSimpleSameAS0 then none
        else some ⟨srcA, srcB, nbytes, bcmpTyBytes⟩

/-- Model of `recognizeBCmp`: requires the `memcmp` or `bcmp` primitive, then a
successful idiom detection; on success the loop is rewritten into a
comparison call. -/
def recognizeBCmp (ctx : LIRContext) (inp : BCmpDetectInput) :
    List IdiomRewrite × Bool :=
  if ¬ctx.hasMemCmp ∧ ¬ctx.hasBCmp then ([], false)
  else
    match detectBCmpIdiom inp with
    | none => ([], false)
    | some _ => ([.bcmp], true)

/-- Shift opcode of the recurrence instruction in the find-first-set
idiom. -/
inductive ShiftOp where
  | shl
  | lshr
  | ashr
  deriving DecidableEq, Repr

/-- The bit-scan intrinsic selected by the shift direction. -/
inductive FFSIntrin where
  | cttz
  | ctlz
  deriving DecidableEq, Repr

/-- The per-step verdicts of `detectShiftUntilZeroIdiom` on the current
loop, in the order the detector consults them: the latch-branch condition
match, the shift-recurrence shape, the recurrence PHI, non-negativity of
the seed (`isKnownNonNegative(InitX, DL)`), and the `cnt.next = cnt + 1`
counter search. -/
structure FFSLoopShape where
  backBranchMatch : Bool
  defXIsShift : Bool
  shiftOp : ShiftOp
  shiftAmtOne : Bool
  recurrencePhi : Bool
  initXNonNeg : Bool
  countInstFound : Bool
  deriving DecidableEq, Repr

/-- Model of `detectShiftUntilZeroIdiom`: detect a shift-by-one recurrence gating the
back edge with a `+1` counter recurrence; an arithmetic right shift is
rejected unless the seed is provably non-negative (the loop might otherwise
never terminate). -/
def detectShiftUntilZeroIdiom (s : FFSLoopShape) : Option FFSIntrin :=
  if ¬s.backBranchMatch then none
  else if ¬s.defXIsShift then none
  else
    let intrinID : FFSIntrin := if s.shiftOp = .shl then .cttz else .ctlz
    if ¬s.shiftAmtOne then none
    else if ¬s.recurrencePhi then none
    else if s.shiftOp = .ashr ∧ ¬s.initXNonNeg then none
    else if ¬s.countInstFound then none
    else some intrinID

/-- The facts `recognizeAndInsertFFS` consults after a successful detection:
liveness of the counter outside the loop, the pre-loop zero-check branch,
and the profitability inputs (header size in non-debug instructions,
whether the target's intrinsic cost is within the basic threshold). -/
structure FFSAux where
  cntInstUsedOutside : Bool
  cntPhiUsedOutside : Bool
  precondSinglePred : Bool
  precondIsBranch : Bool
  precondMatchesInitX : Bool
  headerSize : Nat
  intrinsicCostLow : Bool
  deriving DecidableEq, Repr

/-- Model of `recognizeAndInsertFFS`: single-block single-backedge loop, shift-until-
zero detection, counter-liveness profitability test, zero-check guard
requirement when the counter PHI is not live out, and the canonical-size /
intrinsic-cost check; on success the loop is rewritten to a bit-scan
(canonical idiom size is 6 instructions). -/
def recognizeAndInsertFFS (numBackEdges numBlocks : Nat) (s : FFSLoopShape)
    (aux : FFSAux) : List IdiomRewrite × Bool :=
  if numBackEdges ≠ 1 ∨ numBlocks ≠ 1 then ([], false)
  else
    match detectShiftUntilZeroIdiom s with
    | none => ([], false)
    | some _ =>
      if aux.cntInstUsedOutside ∧ aux.cntPhiUsedOutside then ([], false)
      else if ¬aux.cntPhiUsedOutside ∧
          (¬aux.precondSinglePred ∨ ¬aux.precondIsBranch ∨
            ¬aux.precondMatchesInitX) then ([], false)
      else if aux.headerSize ≠ 6 ∧ ¬aux.intrinsicCostLow then ([], false)
      else ([.ffs], true)

/-- The facts `recognizePopcount` consults: hardware popcount support
(`TTI->getPopcntSupport(32) == PSK_FastHardware`), the loop shape, the
preheader/precondition-block shape, and the verdict of
`detectPopcountIdiom` (which includes the precondition-branch match). -/
structure PopcountInput where
  popcntFastHW : Bool
  numBackEdges : Nat
  numBlocks : Nat
  bodySize : Nat
  phOnlyBranch : Bool
  phTerminatorUncondBranch : Bool
  precondSinglePred : Bool
  precondCondBranch : Bool
  detectOk : Bool
  deriving DecidableEq, Repr

/-- Model of `recognizePopcount`: compact single-block single-backedge loop with fast
hardware popcount, a trivial preheader, a conditional precondition branch,
and a successful `detectPopcountIdiom`; on success the loop is rewritten to
a population-count call. -/
def recognizePopcount (p : PopcountInput) : List IdiomRewrite × Bool :=
  if ¬p.popcntFastHW then ([], false)
  else if p.numBackEdges ≠ 1 ∨ p.numBlocks ≠ 1 then ([], false)
  else if 20 ≤ p.bodySize then ([], false)
  else if ¬p.phOnlyBranch then ([], false)
  else if ¬p.phTerminatorUncondBranch then ([], false)
  else if ¬p.precondSinglePred then ([], false)
  else if ¬p.precondCondBranch then ([], false)
  else if ¬p.detectOk then ([], false)
  else ([.popcount], true)

/-- Model of `runOnNoncountableLoop`:
`recognizeBCmp() || recognizePopcount() || recognizeAndInsertFFS()`: the
three noncountable matchers with short-circuit "or"; the first recognizer
that succeeds performs the only rewrite. -/
def runOnNoncountableLoop (ctx : LIRContext) (bcmpInp : BCmpDetectInput)
    (p : PopcountInput) (numBackEdges numBlocks : Nat) (s : FFSLoopShape)
    (aux : FFSAux) : List IdiomRewrite × Bool :=
  let r1 := recognizeBCmp ctx bcmpInp
  if r1.2 then r1
  else
    let r2 := recognizePopcount p
    if r2.2 then r2
    else recognizeAndInsertFFS numBackEdges numBlocks s aux

/-- Model of `runOnCountableLoop`: bail out when the backedge-taken count is the
constant zero (such a loop should be peeled, not rewritten) or when any
block of the loop may throw; otherwise process each block of the loop not
in a subloop through `runBlock` (the per-block rewriter,
`runOnLoopBlock`), aggregating the change flags. -/
def runOnCountableLoop (env : LIREnv) (runBlock : Nat → IRState → IRState × Bool)
    (st : IRState) : IRState × Bool :=
  if env.becount.isConstZero then (st, false)
  else if env.anyBlockMayThrow then (st, false)
  else
    env.blocks.foldl
      (fun acc bb =>
        if env.loopForBlock bb ≠ env.curLoopId then acc
        else
          let (st', ch) := runBlock bb acc.1
          (st', acc.2 || ch))
      (st, false)

/-- The per-loop facts `runOnLoop` reads before dispatching. -/
structure DriverInput where
  ctx : LIRContext
  hasPreheader : Bool
  funcName : String
  invariantBTC : Bool
  bcmpInp : BCmpDetectInput
  pop : PopcountInput
  numBackEdges : Nat
  numBlocksNC : Nat
  ffsShape : FFSLoopShape
  ffsAux : FFSAux

/-- Model of `runOnLoop`: reject loops without a preheader and functions named after
the primitives this pass introduces; when some primitive is available and
the backedge-taken count is loop-invariant, run the countable-loop
rewriter, otherwise try the noncountable matchers. -/
def runOnLoop (d : DriverInput) (env : LIREnv)
    (runBlock : Nat → IRState → IRState × Bool) (st : IRState) :
    IRState × Bool :=
  if ¬d.hasPreheader then (st, false)
  else if d.funcName = "memset" ∨ d.funcName = "memcpy" ∨
      d.funcName = "memcmp" ∨ d.funcName = "bcmp" then (st, false)
  else if (d.ctx.hasMemset ∨ d.ctx.hasMemsetPattern ∨ d.ctx.hasMemcpy ∨
      d.ctx.hasMemCmp ∨ d.ctx.hasBCmp) ∧ d.invariantBTC then
    runOnCountableLoop env runBlock st
  else
    let (tags, ch) := runOnNoncountableLoop d.ctx d.bcmpInp d.pop d.numBackEdges
      d.numBlocksNC d.ffsShape d.ffsAux
    ({ st with noncountRewrites := st.noncountRewrites ++ tags }, ch)

/-- Generic priority dispatch over recognizer outcomes: the first recognizer
that succeeds contributes the only rewrite. -/
def firstSuccess : List (IdiomRewrite × Bool) → List IdiomRewrite × Bool
  | [] => ([], false)
  | (i, b) :: rest => if b then ([i], true) else firstSuccess rest

/-- Modelled from the spec: the dispatch order the specification claims for
the noncountable path — byte-compare, then find-first-set, then popcount
("dispatches §4.5 → §4.4 → §4.3 in that order, first success wins").
Stated for comparison against `runOnNoncountableLoop`, which is translated
from the source. -/
def runOnNoncountableLoopSpecOrder (ctx : LIRContext) (bcmpInp : BCmpDetectInput)
    (p : PopcountInput) (numBackEdges numBlocks : Nat) (s : FFSLoopShape)
    (aux : FFSAux) : List IdiomRewrite × Bool :=
  firstSuccess [(.bcmp, (recognizeBCmp ctx bcmpInp).2),
                (.ffs, (recognizeAndInsertFFS numBackEdges numBlocks s aux).2),
                (.popcount, (recognizePopcount p).2)]

/-! ## Concrete sample instances

Used by witnesses and counterexamples below. -/

/-- An empty initial function state. -/
def st0 : IRState := ⟨[], 100, [], [], [], []⟩

/-- A benign environment: no aliasing anywhere, expansion always safe, a
single-block innermost loop, no code-size pressure, symbolic trip count. -/
def envOK : LIREnv where
  curLoopId := 0
  aa := fun _ _ => .NoModRef
  loopInsts := [7, 8]
  becount := .unknown 32 0
  intPtrWidth := 64
  safeToExpand := fun _ => true
  guardedNeMinus1 := false
  hasOptSize := false
  useLIRCodeSizeHeurs := true
  numBlocks := 1
  hasParentLoop := false
  maxAtomicElementSize := 16
  anyBlockMayThrow := false
  blocks := [0]
  loopForBlock := fun _ => 0
  isConsecutive := fun _ _ => false

/-- Like `envOK` but every instruction of the loop may read and write every
location. -/
def envBad : LIREnv := { envOK with aa := fun _ _ => .ModRef }

/-- Like `envOK` but optimizing for size with a multi-block top-level
loop. -/
def envCodeSize : LIREnv := { envOK with hasOptSize := true, numBlocks := 2 }

/-- Like `envOK` but some block of the loop may throw. -/
def envThrow : LIREnv := { envOK with anyBlockMayThrow := true }

/-- Like `envOK` but with a backedge-taken count that is statically zero. -/
def envZero : LIREnv := { envOK with becount := .constant 32 0 }

/-- Model of `{%p,+,4}<L0>` with an already-materialized start. -/
def evA : SCEV := .addRec (.unknown 64 1) (.constant 64 4) 0 0

/-- Model of `{%q,+,4}<L0>` with an already-materialized start. -/
def evB : SCEV := .addRec (.unknown 64 2) (.constant 64 4) 0 0

/-- Model of `{%p+8,+,4}<L0>`: a start whose expansion emits code. -/
def evC : SCEV :=
  .addRec (.add (.unknown 64 1) (.constant 64 8)) (.constant 64 4) 0 0

/-- A 4-byte non-atomic copy candidate from `evB` to `evA`. -/
def siA : CpyStore := ⟨7, evA, evB, 4, false, false, 4, 4⟩

/-- A single-store fill group: store id 7 of 4 bytes at `evA` (stride 4). -/
def slA : List MSStore := [⟨7, evA, 4, .val 1⟩]

/-- SCEV facts for a byte-compare loop over 2-byte elements with a 64-bit
size type. -/
def seOK : BCmpSCEVInput where
  curLoopId := 0
  scevForSrcA := .addRec (.unknown 64 1) (.constant 64 2) 0 0
  scevForSrcB := .addRec (.unknown 64 2) (.constant 64 2) 0 0
  avail := fun _ => true
  latchExitCount := .unknown 64 3
  ecIntOrPtrTy := true
  sizeTyBits := 64

/-- A fully matching byte-compare loop over 16-bit elements. -/
def inpOK : BCmpDetectInput where
  isLoopSimplifyForm := true
  numBlocks := 2
  structureMatch := true
  loadsMatch := true
  controlFlowOk := true
  bcmpTyBits := 16
  loadsSimpleSameAS0 := true
  se := seOK

/-- The match `detectBCmpIdiom` produces on `inpOK`. -/
def mOK : BCmpMatch :=
  ⟨.unknown 64 1, .unknown 64 2,
   .mul (.add (.unknown 64 3) (.constant 64 1)) (.constant 64 2), 2⟩

/-- A byte-compare input rejected at the basic-structure gate. -/
def bcmpFailInp : BCmpDetectInput where
  isLoopSimplifyForm := false
  numBlocks := 1
  structureMatch := false
  loadsMatch := false
  controlFlowOk := false
  bcmpTyBits := 8
  loadsSimpleSameAS0 := false
  se := seOK

/-- Target context providing only `memcmp`. -/
def ctxMemcmp : LIRContext := ⟨0, false, false, false, true, false⟩

/-- Target context providing no primitive at all. -/
def ctxNone : LIRContext := ⟨0, false, false, false, false, false⟩

/-- Target context providing only `memset`. -/
def ctxMS : LIRContext := ⟨0, true, false, false, false, false⟩

/-- A popcount loop on which every gate of `recognizePopcount` passes. -/
def popOK : PopcountInput := ⟨true, 1, 1, 10, true, true, true, true, true⟩

/-- A find-first-set loop shape on which every detection step passes
(logical shift right). -/
def sFFSOK : FFSLoopShape := ⟨true, true, .lshr, true, true, true, true⟩

/-- A find-first-set loop shape with an arithmetic shift right whose seed
is not provably non-negative. -/
def sAshr : FFSLoopShape := ⟨true, true, .ashr, true, true, false, true⟩

/-- Post-detection facts on which every `recognizeAndInsertFFS` check
passes. -/
def auxOK : FFSAux := ⟨false, false, true, true, true, 6, true⟩

/-- A driver input with no primitive available and a popcount loop. -/
def dC4 : DriverInput :=
  ⟨ctxNone, true, "f", true, bcmpFailInp, popOK, 1, 1, sFFSOK, auxOK⟩

/-- A driver input whose backedge-taken count is not loop-invariant. -/
def dNoBTC : DriverInput :=
  ⟨ctxMS, true, "f", false, bcmpFailInp, popOK, 1, 1, sFFSOK, auxOK⟩

/-- A memset-classifiable store: simple `i32` store of a splat value at the
affine address `evA`. -/
def siMS : StoreInfo :=
  ⟨false, .notAtomic, 32, false, false, evA, 0, some 0, true, none, none⟩

/-! ## Helper lemmas -/

theorem expandCodeFor_memsetCalls (st : IRState) (e : SCEV) :
    (expandCodeFor st e).1.memsetCalls = st.memsetCalls := by
  cases e <;> rfl

theorem expandCodeFor_memcpyCalls (st : IRState) (e : SCEV) :
    (expandCodeFor st e).1.memcpyCalls = st.memcpyCalls := by
  cases e <;> rfl

theorem expandCodeFor_deletedInsts (st : IRState) (e : SCEV) :
    (expandCodeFor st e).1.deletedInsts = st.deletedInsts := by
  cases e <;> rfl

theorem expandCodeFor_noncountRewrites (st : IRState) (e : SCEV) :
    (expandCodeFor st e).1.noncountRewrites = st.noncountRewrites := by
  cases e <;> rfl

theorem removeExpanded_memsetCalls (st : IRState) (v : ExpVal) :
    (removeExpanded st v).memsetCalls = st.memsetCalls := by
  cases v <;> rfl

theorem removeExpanded_memcpyCalls (st : IRState) (v : ExpVal) :
    (removeExpanded st v).memcpyCalls = st.memcpyCalls := by
  cases v <;> rfl

theorem removeExpanded_deletedInsts (st : IRState) (v : ExpVal) :
    (removeExpanded st v).deletedInsts = st.deletedInsts := by
  cases v <;> rfl

theorem removeExpanded_noncountRewrites (st : IRState) (v : ExpVal) :
    (removeExpanded st v).noncountRewrites = st.noncountRewrites := by
  cases v <;> rfl

/-- Behaviour summary of `processLoopStridedStore`: a successful merge
requires the alias-oracle check on the computed region to have passed and
appends exactly the merged fill call, deleting exactly the merged stores;
a failed attempt deletes nothing and emits no call. -/
theorem processLoopStridedStore_spec (env : LIREnv) (st : IRState)
    (storeSize : Nat) (stores : List Nat) (ev : SCEV)
    (negStride isLoopMemset : Bool) :
    ((processLoopStridedStore env st storeSize stores ev negStride
        isLoopMemset).2 = true →
      mayLoopAccessLocation env.aa env.loopInsts
          (stridedStoreStart env storeSize ev negStride) .ModRef env.becount
          storeSize stores = false ∧
      (processLoopStridedStore env st storeSize stores ev negStride
          isLoopMemset).1.memsetCalls =
        st.memsetCalls ++ [⟨ev, storeSize, stores⟩] ∧
      (processLoopStridedStore env st storeSize stores ev negStride
          isLoopMemset).1.deletedInsts = st.deletedInsts ++ stores) ∧
    ((processLoopStridedStore env st storeSize stores ev negStride
        isLoopMemset).2 = false →
      (processLoopStridedStore env st storeSize stores ev negStride
          isLoopMemset).1.memsetCalls = st.memsetCalls ∧
      (processLoopStridedStore env st storeSize stores ev negStride
          isLoopMemset).1.deletedInsts = st.deletedInsts ∧
      (processLoopStridedStore env st storeSize stores ev negStride
          isLoopMemset).1.memcpyCalls = st.memcpyCalls ∧
      (processLoopStridedStore env st storeSize stores ev negStride
          isLoopMemset).1.noncountRewrites = st.noncountRewrites) := by
  cases h1 : env.safeToExpand (stridedStoreStart env storeSize ev negStride) <;>
  cases h2 : mayLoopAccessLocation env.aa env.loopInsts
    (stridedStoreStart env storeSize ev negStride) .ModRef env.becount
    storeSize stores <;>
  cases h3 : avoidLIRForMultiBlockLoop env true isLoopMemset <;>
  cases h4 : env.safeToExpand (getNumBytes env.becount env.intPtrWidth storeSize
    env.guardedNeMinus1) <;>
  simp [processLoopStridedStore, h1, h2, h3, h4, expandCodeFor_memsetCalls,
    expandCodeFor_deletedInsts, expandCodeFor_memcpyCalls,
    expandCodeFor_noncountRewrites, removeExpanded_memsetCalls,
    removeExpanded_deletedInsts, removeExpanded_memcpyCalls,
    removeExpanded_noncountRewrites]

/-- Behaviour summary of `processLoopStoreOfLoopLoad`: a successful copy
rewrite requires both alias-oracle checks to have passed (no read/write of
the destination region, no write of the source region, each ignoring only
the store being replaced) and deletes exactly that store; a failed attempt
deletes nothing and emits no call. -/
theorem processLoopStoreOfLoopLoad_spec (env : LIREnv) (st : IRState)
    (si : CpyStore) :
    ((processLoopStoreOfLoopLoad env st si).2 = true →
      mayLoopAccessLocation env.aa env.loopInsts (cpyDestStart env si) .ModRef
          env.becount si.storeSize [si.id] = false ∧
      mayLoopAccessLocation env.aa env.loopInsts (cpyLoadStart env si) .Mod
          env.becount si.storeSize [si.id] = false ∧
      (processLoopStoreOfLoopLoad env st si).1.deletedInsts =
        st.deletedInsts ++ [si.id]) ∧
    ((processLoopStoreOfLoopLoad env st si).2 = false →
      (processLoopStoreOfLoopLoad env st si).1.deletedInsts = st.deletedInsts ∧
      (processLoopStoreOfLoopLoad env st si).1.memcpyCalls = st.memcpyCalls ∧
      (processLoopStoreOfLoopLoad env st si).1.memsetCalls = st.memsetCalls) := by
  cases h1 : mayLoopAccessLocation env.aa env.loopInsts (cpyDestStart env si)
    .ModRef env.becount si.storeSize [si.id] <;>
  cases h2 : mayLoopAccessLocation env.aa env.loopInsts (cpyLoadStart env si)
    .Mod env.becount si.storeSize [si.id] <;>
  cases h3 : avoidLIRForMultiBlockLoop env false false <;>
  cases h4 : (!si.storeAtomic && !si.loadAtomic) <;>
  by_cases h5 : min si.storeAlign si.loadAlign < si.storeSize <;>
  by_cases h6 : si.storeSize > env.maxAtomicElementSize <;>
  simp [processLoopStoreOfLoopLoad, h1, h2, h3, h4, h5, h6,
    expandCodeFor_memsetCalls, expandCodeFor_deletedInsts,
    expandCodeFor_memcpyCalls, removeExpanded_memsetCalls,
    removeExpanded_deletedInsts, removeExpanded_memcpyCalls]

/-- Shape fact: `recognizeBCmp` either does nothing or applies exactly the byte-compare
rewrite. -/
theorem recognizeBCmp_cases (ctx : LIRContext) (inp : BCmpDetectInput) :
    recognizeBCmp ctx inp = ([], false) ∨
    recognizeBCmp ctx inp = ([.bcmp], true) := by
  unfold recognizeBCmp
  split_ifs
  · exact Or.inl rfl
  · cases detectBCmpIdiom inp <;> simp

/-- Shape fact: `recognizePopcount` either does nothing or applies exactly the popcount
rewrite. -/
theorem recognizePopcount_cases (p : PopcountInput) :
    recognizePopcount p = ([], false) ∨
    recognizePopcount p = ([.popcount], true) := by
  unfold recognizePopcount
  split_ifs <;> simp

/-- Shape fact: `recognizeAndInsertFFS` either does nothing or applies exactly the
find-first-set rewrite. -/
theorem recognizeAndInsertFFS_cases (numBackEdges numBlocks : Nat)
    (s : FFSLoopShape) (aux : FFSAux) :
    recognizeAndInsertFFS numBackEdges numBlocks s aux = ([], false) ∨
    recognizeAndInsertFFS numBackEdges numBlocks s aux = ([.ffs], true) := by
  unfold recognizeAndInsertFFS
  by_cases h1 : numBackEdges ≠ 1 ∨ numBlocks ≠ 1
  · rw [if_pos h1]; exact Or.inl rfl
  · rw [if_neg h1]
    cases detectShiftUntilZeroIdiom s
    · exact Or.inl rfl
    · split_ifs <;> simp

/-- A natural number equal to an integer or to its negation equals its
absolute value. -/
theorem nat_eq_natAbs_of_eq_or_eq_neg (n : Nat) (s : Int)
    (h : (n : Int) = s ∨ (n : Int) = -s) : (n : Int) = s.natAbs := by
  rcases h with h | h <;> omega

/-- Invariant preservation through a left fold. -/
theorem foldl_preserve {α σ : Type} (P : σ → Prop) (f : σ → α → σ)
    (l : List α) (s : σ) (h0 : P s) (hstep : ∀ t a, P t → P (f t a)) :
    P (l.foldl f s) := by
  induction l generalizing s with
  | nil => exact h0
  | cons a as ih => exact ih (f s a) (hstep s a h0)

/-- The fill calls present after `processLoopStridedStore` are the previous
calls, possibly extended with the one merged call. -/
theorem processLoopStridedStore_calls (env : LIREnv) (st : IRState)
    (storeSize : Nat) (stores : List Nat) (ev : SCEV)
    (negStride isLoopMemset : Bool) :
    (processLoopStridedStore env st storeSize stores ev negStride
        isLoopMemset).1.memsetCalls = st.memsetCalls ∨
    (processLoopStridedStore env st storeSize stores ev negStride
        isLoopMemset).1.memsetCalls =
      st.memsetCalls ++ [⟨ev, storeSize, stores⟩] := by
  rcases h : (processLoopStridedStore env st storeSize stores ev negStride
    isLoopMemset).2 with _ | _
  · exact Or.inl ((processLoopStridedStore_spec env st storeSize stores ev
      negStride isLoopMemset).2 h).1
  · exact Or.inr ((processLoopStridedStore_spec env st storeSize stores ev
      negStride isLoopMemset).1 h).2.1

/-- One addition modulo: `(a + 1 % n) % n = (a + 1) % n`. -/
theorem add_one_emod (a : Int) (n : Int) : (a + 1 % n) % n = (a + 1) % n := by
  conv_lhs => rw [Int.add_emod, Int.emod_emod_of_dvd _ dvd_rfl, ← Int.add_emod]

/-- Evaluation of the byte-count expression `detectBCmpIdiom` builds:
`(Iterations promoted to the size type) * bytes` denotes
`((exitCount + 1) mod 2^w) * bytes mod 2^sizeTy`. -/
theorem eval_bcmp_nbytes (env : Nat → Int) (ec : SCEV) (wS bytes : Nat) :
    SCEV.eval env
      (.mul (noopOrZeroExtend (.add ec (.constant ec.width 1)) wS)
        (.constant wS (bytes : Int))) =
    ((ec.eval env + 1) % ((2 : Int) ^ ec.width) * bytes) % ((2 : Int) ^ wS) := by
  unfold noopOrZeroExtend
  by_cases h : (SCEV.add ec (.constant ec.width 1)).width = wS
  · rw [if_pos h]
    have hw : ec.width = wS := h
    simp only [SCEV.eval, SCEV.width, hw]
    rw [add_one_emod]
    conv_lhs => rw [Int.mul_emod, Int.emod_emod_of_dvd _ dvd_rfl,
      Int.emod_emod_of_dvd _ dvd_rfl]
    conv_rhs => rw [Int.mul_emod, Int.emod_emod_of_dvd _ dvd_rfl]
  · rw [if_neg h]
    simp only [SCEV.eval, SCEV.width]
    rw [add_one_emod]
    conv_lhs => rw [Int.mul_emod, Int.emod_emod_of_dvd _ dvd_rfl]
    conv_rhs => rw [Int.mul_emod]

/-- Membership invariant through `processLoopStridedStore`: when the merged
byte count matches the absolute stride of the merged recurrence, every fill
call in the output was already present or satisfies the size/stride
contiguity equation. -/
theorem stridedStore_calls_mem (env : LIREnv) (st : IRState) (storeSize : Nat)
    (stores : List Nat) (ev : SCEV) (negStride isLoopMemset : Bool)
    (initCalls : List MemsetCall)
    (hguard : (storeSize : Int) = getStoreStride ev ∨
      (storeSize : Int) = -(getStoreStride ev))
    (hP : ∀ x ∈ st.memsetCalls,
      x ∈ initCalls ∨ (x.storeSize : Int) = (getStoreStride x.ev).natAbs) :
    ∀ x ∈ (processLoopStridedStore env st storeSize stores ev negStride
        isLoopMemset).1.memsetCalls,
      x ∈ initCalls ∨ (x.storeSize : Int) = (getStoreStride x.ev).natAbs := by
  intro x hx
  rcases processLoopStridedStore_calls env st storeSize stores ev negStride
    isLoopMemset with hc | hc
  · rw [hc] at hx
    exact hP x hx
  · rw [hc, List.mem_append] at hx
    rcases hx with hx | hx
    · exact hP x hx
    · rcases List.mem_singleton.mp hx with rfl
      exact Or.inr (nat_eq_natAbs_of_eq_or_eq_neg storeSize (getStoreStride ev)
        hguard)

/-- Membership invariant through one phase-two merge step of
`processLoopStores`. -/
theorem mergeStep_calls_mem (env : LIREnv) (sl : List MSStore)
    (chainSt : ChainState) (initCalls : List MemsetCall) (acc : MergeAcc)
    (hIdx : Nat)
    (hP : ∀ x ∈ acc.st.memsetCalls,
      x ∈ initCalls ∨ (x.storeSize : Int) = (getStoreStride x.ev).natAbs) :
    ∀ x ∈ (processLoopStoresMergeStep env sl chainSt acc hIdx).st.memsetCalls,
      x ∈ initCalls ∨ (x.storeSize : Int) = (getStoreStride x.ev).natAbs := by
  unfold processLoopStoresMergeStep
  dsimp only
  split_ifs with t1 t2 t3
  · exact hP
  · exact hP
  · refine stridedStore_calls_mem env acc.st _ _ _ _ _ initCalls ?_ hP
    rcases not_and_or.mp t2 with hg | hg
    · exact Or.inl (not_not.mp hg)
    · exact Or.inr (not_not.mp hg)
  · refine stridedStore_calls_mem env acc.st _ _ _ _ _ initCalls ?_ hP
    rcases not_and_or.mp t2 with hg | hg
    · exact Or.inl (not_not.mp hg)
    · exact Or.inr (not_not.mp hg)

/-- Shape fact: `noopOrZeroExtend` lands in the requested width. -/
theorem noopOrZeroExtend_width (e : SCEV) (w : Nat) :
    (noopOrZeroExtend e w).width = w := by
  unfold noopOrZeroExtend
  split_ifs with h
  · exact h
  · rfl

/-! ## Claim theorems -/

/-- C1: a fill/pattern-fill group is merged into a memset call only if the
alias oracle proves that no instruction in the loop other than the merged
stores may read or write the computed target region, and a copy candidate
is rewritten into a memcpy only if no other instruction may read or write
the destination region and none may write the source region — reads of the
source are permitted, as an instruction whose summary on the source
location is `Ref` is filtered out by intersecting with `Mod`; when either
check fails, nothing is deleted and the original stores stay in place. -/
theorem alias_oracle_gates_merges (env : LIREnv) (stF stC : IRState)
    (storeSize : Nat) (stores : List Nat) (ev : SCEV)
    (negStride isLoopMemset : Bool) (si : CpyStore) :
    ((processLoopStridedStore env stF storeSize stores ev negStride
        isLoopMemset).2 = true →
      mayLoopAccessLocation env.aa env.loopInsts
        (stridedStoreStart env storeSize ev negStride) .ModRef env.becount
        storeSize stores = false) ∧
    ((processLoopStridedStore env stF storeSize stores ev negStride
        isLoopMemset).2 = false →
      (processLoopStridedStore env stF storeSize stores ev negStride
        isLoopMemset).1.deletedInsts = stF.deletedInsts) ∧
    ((processLoopStoreOfLoopLoad env stC si).2 = true →
      mayLoopAccessLocation env.aa env.loopInsts (cpyDestStart env si) .ModRef
        env.becount si.storeSize [si.id] = false ∧
      mayLoopAccessLocation env.aa env.loopInsts (cpyLoadStart env si) .Mod
        env.becount si.storeSize [si.id] = false) ∧
    ((processLoopStoreOfLoopLoad env stC si).2 = false →
      (processLoopStoreOfLoopLoad env stC si).1.deletedInsts =
        stC.deletedInsts) ∧
    isModOrRefSet (intersectModRef .Ref .Mod) = false := by
  refine ⟨fun h => ?_, fun h => ?_, fun h => ?_, fun h => ?_, rfl⟩
  · exact ((processLoopStridedStore_spec env stF storeSize stores ev negStride
      isLoopMemset).1 h).1
  · exact ((processLoopStridedStore_spec env stF storeSize stores ev negStride
      isLoopMemset).2 h).2.1
  · exact ⟨((processLoopStoreOfLoopLoad_spec env stC si).1 h).1,
      ((processLoopStoreOfLoopLoad_spec env stC si).1 h).2.1⟩
  · exact ((processLoopStoreOfLoopLoad_spec env stC si).2 h).1

theorem alias_oracle_gates_merges_witness :
    ((processLoopStridedStore envOK st0 4 [7] evA false false).2 = true ∧
      mayLoopAccessLocation envOK.aa envOK.loopInsts
        (stridedStoreStart envOK 4 evA false) .ModRef envOK.becount 4 [7] =
        false) ∧
    ((processLoopStridedStore envBad st0 4 [7] evA false false).2 = false ∧
      (processLoopStridedStore envBad st0 4 [7] evA false
        false).1.deletedInsts = st0.deletedInsts) ∧
    ((processLoopStoreOfLoopLoad envOK st0 siA).2 = true ∧
      mayLoopAccessLocation envOK.aa envOK.loopInsts (cpyDestStart envOK siA)
        .ModRef envOK.becount siA.storeSize [siA.id] = false) ∧
    ((processLoopStoreOfLoopLoad envBad st0 siA).2 = false ∧
      (processLoopStoreOfLoopLoad envBad st0 siA).1.deletedInsts =
        st0.deletedInsts) :=
  ⟨⟨by decide,
    (alias_oracle_gates_merges envOK st0 st0 4 [7] evA false false siA).1
      (by decide)⟩,
   ⟨by decide,
    (alias_oracle_gates_merges envBad st0 st0 4 [7] evA false false siA).2.1
      (by decide)⟩,
   ⟨by decide,
    ((alias_oracle_gates_merges envOK st0 st0 4 [7] evA false false siA).2.2.1
      (by decide)).1⟩,
   ⟨by decide,
    (alias_oracle_gates_merges envBad st0 st0 4 [7] evA false false
      siA).2.2.2.1 (by decide)⟩⟩

/-- C2: whenever the byte-compare idiom is matched, both loaded addresses
are affine recurrences over the current loop with the identical
compile-time-constant step equal to the compared element's byte width, the
compared bit width is a whole number of bytes, and the length expression of
the emitted comparison call lives in the target's size type and denotes
`(latch exit count + 1) * element byte width` (promoted, i.e. reduced
modulo the size-type width). -/
theorem bcmp_step_and_length (inp : BCmpDetectInput) (m : BCmpMatch)
    (env : Nat → Int) (h : detectBCmpIdiom inp = some m) :
    (∃ sA sB w,
      inp.se.scevForSrcA =
        .addRec sA (.constant w (m.bytes : Int)) inp.se.curLoopId 0 ∧
      inp.se.scevForSrcB =
        .addRec sB (.constant w (m.bytes : Int)) inp.se.curLoopId 0) ∧
    inp.bcmpTyBits % 8 = 0 ∧
    m.bytes = inp.bcmpTyBits / 8 ∧
    m.nbytes.width = inp.se.sizeTyBits ∧
    m.nbytes.eval env =
      ((inp.se.latchExitCount.eval env + 1) %
          ((2 : Int) ^ inp.se.latchExitCount.width) * m.bytes) %
        ((2 : Int) ^ inp.se.sizeTyBits) := by
  unfold detectBCmpIdiom at h
  split_ifs at h with g1 g2 g3 g4 g5 g6
  all_goals try exact Option.noConfusion h
  case _ =>
    dsimp only at h
    rcases hr : recognizeBCmpLoopSCEV inp.se (inp.bcmpTyBits / 8) with _ |
      ⟨sa, sb, iters⟩ <;> rw [hr] at h
    · exact Option.noConfusion h
    · injection h with h
      subst h
      unfold recognizeBCmpLoopSCEV at hr
      cases hA : inp.se.scevForSrcA <;> rw [hA] at hr <;>
        try exact Option.noConfusion hr
      case addRec sA stA lA eA =>
      cases hB : inp.se.scevForSrcB <;> rw [hB] at hr <;>
        try exact Option.noConfusion hr
      case addRec sB stB lB eB =>
      dsimp only at hr
      cases hst : stA <;> rw [hst] at hr <;> dsimp only at hr
      all_goals try (split_ifs at hr <;> exact Option.noConfusion hr)
      rename_i w v
      split_ifs at hr with k1 k2 k3 k4 k5
      all_goals try exact Option.noConfusion hr
      simp only [Option.some.injEq, Prod.mk.injEq] at hr
      obtain ⟨rfl, rfl, rfl⟩ := hr
      obtain ⟨heA, heB, hlA, hlB⟩ := k1
      have hstep : stB = SCEV.constant w v := (not_not.mp k2).symm
      have hv : v = ((inp.bcmpTyBits / 8 : Nat) : Int) := not_not.mp k3
      subst heA heB hlA hlB hstep hv
      refine ⟨⟨sA, sB, w, rfl, rfl⟩, not_not.mp g5, rfl, ?_, ?_⟩
      · exact noopOrZeroExtend_width _ _
      · exact eval_bcmp_nbytes env inp.se.latchExitCount inp.se.sizeTyBits
          (inp.bcmpTyBits / 8)
  case _ =>
    dsimp only at h
    rcases hr : recognizeBCmpLoopSCEV inp.se (inp.bcmpTyBits / 8) with _ |
      ⟨sa, sb, iters⟩ <;> rw [hr] at h <;> exact Option.noConfusion h

theorem bcmp_step_and_length_witness :
    detectBCmpIdiom inpOK = some mOK ∧
    SCEV.eval (fun _ => 5) mOK.nbytes =
      ((SCEV.eval (fun _ => 5) inpOK.se.latchExitCount + 1) %
          ((2 : Int) ^ (SCEV.width inpOK.se.latchExitCount)) * mOK.bytes) %
        ((2 : Int) ^ inpOK.se.sizeTyBits) :=
  ⟨by decide, (bcmp_step_and_length inpOK mOK (fun _ => 5) (by decide)).2.2.2.2⟩

/-- C3 counterexample: on a loop where the byte-compare detector fails and
both the popcount and the find-first-set detectors would succeed, the code
applies the popcount rewrite, whereas the claimed order (byte-compare, then
find-first-set, then popcount) would apply the find-first-set rewrite: the
noncountable dispatch order is not bcmp → ffs → popcount. -/
theorem noncountable_order_cex :
    runOnNoncountableLoop ctxMemcmp bcmpFailInp popOK 1 1 sFFSOK auxOK =
      ([.popcount], true) ∧
    recognizeAndInsertFFS 1 1 sFFSOK auxOK = ([.ffs], true) ∧
    runOnNoncountableLoopSpecOrder ctxMemcmp bcmpFailInp popOK 1 1 sFFSOK
      auxOK = ([.ffs], true) ∧
    IdiomRewrite.popcount ≠ IdiomRewrite.ffs :=
  ⟨by decide, by decide, by decide, by decide⟩

/-- C3 (amended): for every loop dispatched to the noncountable path, the
three idiom detectors are tried in the fixed order byte-compare, then
popcount, then find-first-set, with short-circuit evaluation, so the first
detector that succeeds is the only rewrite applied to that loop. -/
theorem noncountable_dispatch_order (ctx : LIRContext)
    (bcmpInp : BCmpDetectInput) (p : PopcountInput)
    (numBackEdges numBlocks : Nat) (s : FFSLoopShape) (aux : FFSAux) :
    runOnNoncountableLoop ctx bcmpInp p numBackEdges numBlocks s aux =
      firstSuccess
        [(.bcmp, (recognizeBCmp ctx bcmpInp).2),
         (.popcount, (recognizePopcount p).2),
         (.ffs, (recognizeAndInsertFFS numBackEdges numBlocks s aux).2)] := by
  obtain h1 | h1 := recognizeBCmp_cases ctx bcmpInp <;>
  obtain h2 | h2 := recognizePopcount_cases p <;>
  obtain h3 | h3 := recognizeAndInsertFFS_cases numBackEdges numBlocks s aux <;>
  simp [runOnNoncountableLoop, firstSuccess, h1, h2, h3]

/-- C4 counterexample: with none of the five primitives (`memset`,
`memset_pattern16`, `memcpy`, `memcmp`, `bcmp`) available, the driver still
reaches the noncountable matchers and the popcount rewrite fires, so a
rewrite is performed although the equality/comparison primitive does not
exist. -/
theorem no_primitive_rewrite_cex :
    dC4.ctx.hasMemset = false ∧ dC4.ctx.hasMemsetPattern = false ∧
    dC4.ctx.hasMemcpy = false ∧ dC4.ctx.hasMemCmp = false ∧
    dC4.ctx.hasBCmp = false ∧
    runOnLoop dC4 envOK (fun _ s => (s, false)) st0 =
      ({ st0 with noncountRewrites := [.popcount] }, true) :=
  ⟨rfl, rfl, rfl, rfl, rfl, by decide⟩

/-- C4 (amended): when none of the fill/copy/compare primitives is provided
by the target/runtime, the countable-loop rewriter is never invoked (the
result does not depend on the per-block rewriter at all) and the
byte-compare rewrite is not attempted (it requires `memcmp` or `bcmp`);
the popcount and find-first-set matchers, which need no library primitive,
may however still be attempted. -/
theorem no_primitive_dispatch (d : DriverInput) (env : LIREnv)
    (f g : Nat → IRState → IRState × Bool) (st : IRState)
    (h1 : d.ctx.hasMemset = false) (h2 : d.ctx.hasMemsetPattern = false)
    (h3 : d.ctx.hasMemcpy = false) (h4 : d.ctx.hasMemCmp = false)
    (h5 : d.ctx.hasBCmp = false) :
    runOnLoop d env f st = runOnLoop d env g st ∧
    recognizeBCmp d.ctx d.bcmpInp = ([], false) := by
  constructor
  · unfold runOnLoop
    simp [h1, h2, h3, h4, h5]
  · unfold recognizeBCmp
    rw [if_pos]
    exact ⟨by simp [h4], by simp [h5]⟩

theorem no_primitive_dispatch_witness :
    dC4.ctx.hasMemset = false ∧ dC4.ctx.hasMemsetPattern = false ∧
    dC4.ctx.hasMemcpy = false ∧ dC4.ctx.hasMemCmp = false ∧
    dC4.ctx.hasBCmp = false ∧
    (runOnLoop dC4 envOK (fun _ s => (s, true)) st0 =
      runOnLoop dC4 envOK (fun b s => (s, b = 0)) st0 ∧
     recognizeBCmp dC4.ctx dC4.bcmpInp = ([], false)) :=
  ⟨rfl, rfl, rfl, rfl, rfl,
   no_primitive_dispatch dC4 envOK (fun _ s => (s, true))
     (fun b s => (s, b = 0)) st0 rfl rfl rfl rfl rfl⟩

/-- C5 counterexample: a strided-store rewrite attempt that fails at the
code-size heuristic (after the base pointer has been expanded) returns
"unchanged" but leaves the freshly expanded base-address instruction in the
preheader, so it is not true that on every failure no new instructions
remain in the preheader. -/
theorem stridedStore_untouched_cex :
    (processLoopStridedStore envCodeSize st0 4 [7] evC false false).2 =
      false ∧
    (processLoopStridedStore envCodeSize st0 4 [7] evC false
      false).1.preheaderInsts ≠ st0.preheaderInsts :=
  ⟨by decide, by decide⟩

/-- C5 (amended): every strided-store rewrite attempt has exactly two
outcomes: on success "changed" is returned and exactly the merged fill call
is recorded with the merged stores deleted; on failure "unchanged" is
returned, no original instruction has been deleted and no call has been
emitted — however, on failure paths past the alias check (code-size
heuristic, unexpandable byte count) the already-expanded base-address code
may remain in the preheader as dead instructions. -/
theorem stridedStore_outcomes (env : LIREnv) (st : IRState) (storeSize : Nat)
    (stores : List Nat) (ev : SCEV) (negStride isLoopMemset : Bool) :
    ((processLoopStridedStore env st storeSize stores ev negStride
        isLoopMemset).2 = false →
      (processLoopStridedStore env st storeSize stores ev negStride
        isLoopMemset).1.deletedInsts = st.deletedInsts ∧
      (processLoopStridedStore env st storeSize stores ev negStride
        isLoopMemset).1.memsetCalls = st.memsetCalls ∧
      (processLoopStridedStore env st storeSize stores ev negStride
        isLoopMemset).1.memcpyCalls = st.memcpyCalls ∧
      (processLoopStridedStore env st storeSize stores ev negStride
        isLoopMemset).1.noncountRewrites = st.noncountRewrites) ∧
    ((processLoopStridedStore env st storeSize stores ev negStride
        isLoopMemset).2 = true →
      (processLoopStridedStore env st storeSize stores ev negStride
        isLoopMemset).1.memsetCalls =
        st.memsetCalls ++ [⟨ev, storeSize, stores⟩] ∧
      (processLoopStridedStore env st storeSize stores ev negStride
        isLoopMemset).1.deletedInsts = st.deletedInsts ++ stores) := by
  refine ⟨fun h => ?_, fun h => ?_⟩
  · obtain ⟨a, b, c, d⟩ := (processLoopStridedStore_spec env st storeSize
      stores ev negStride isLoopMemset).2 h
    exact ⟨b, a, c, d⟩
  · obtain ⟨_, b, c⟩ := (processLoopStridedStore_spec env st storeSize stores
      ev negStride isLoopMemset).1 h
    exact ⟨b, c⟩

theorem stridedStore_outcomes_witness :
    ((processLoopStridedStore envCodeSize st0 4 [7] evC false false).2 =
        false ∧
      (processLoopStridedStore envCodeSize st0 4 [7] evC false
        false).1.deletedInsts = st0.deletedInsts) ∧
    ((processLoopStridedStore envOK st0 4 [7] evA false false).2 = true ∧
      (processLoopStridedStore envOK st0 4 [7] evA false
        false).1.memsetCalls = st0.memsetCalls ++ [⟨evA, 4, [7]⟩]) :=
  ⟨⟨by decide,
    ((stridedStore_outcomes envCodeSize st0 4 [7] evC false false).1
      (by decide)).1⟩,
   ⟨by decide,
    ((stridedStore_outcomes envOK st0 4 [7] evA false false).2
      (by decide)).1⟩⟩

/-- C6: the store classifier accepts a store (classifies it as anything
other than rejected) only if it is not volatile, is simple or
unordered-atomic, its stored type is not a non-integral pointer
representation, it carries no non-temporal marking, its stored size is a
multiple of 8 bits and fits in 32 bits, and its address is an affine
recurrence over the current loop with a compile-time-constant step. -/
theorem store_classifier_guards (ctx : LIRContext) (si : StoreInfo)
    (h : isLegalStore ctx si ≠ .None) :
    si.volatile = false ∧
    (si.ordering = .notAtomic ∨ si.ordering = .unordered) ∧
    si.valueTyNonIntegralPtr = false ∧
    si.nontemporal = false ∧
    si.sizeInBits % 8 = 0 ∧
    si.sizeInBits < 2 ^ 32 ∧
    ∃ start w v, si.ptrEv = .addRec start (.constant w v) ctx.curLoopId 0 := by
  unfold isLegalStore at h
  by_cases h1 : si.volatile = true
  · rw [if_pos h1] at h; exact absurd rfl h
  rw [if_neg h1] at h
  by_cases h2 : ¬storeIsUnordered si = true
  · rw [if_pos h2] at h; exact absurd rfl h
  rw [if_neg h2] at h
  by_cases h3 : si.valueTyNonIntegralPtr = true
  · rw [if_pos h3] at h; exact absurd rfl h
  rw [if_neg h3] at h
  by_cases h4 : si.nontemporal = true
  · rw [if_pos h4] at h; exact absurd rfl h
  rw [if_neg h4] at h
  by_cases h5 : si.sizeInBits % 8 ≠ 0 ∨ 2 ^ 32 ≤ si.sizeInBits
  · rw [if_pos h5] at h; exact absurd rfl h
  rw [if_neg h5] at h
  rw [not_not] at h2
  simp only [storeIsUnordered, decide_eq_true_eq] at h2
  push_neg at h5
  cases hEv : si.ptrEv <;> rw [hEv] at h <;> try exact absurd rfl h
  rename_i start step loopId extraSteps
  dsimp only at h
  by_cases h6 : loopId ≠ ctx.curLoopId ∨ extraSteps ≠ 0
  · rw [if_pos h6] at h; exact absurd rfl h
  rw [if_neg h6] at h
  push_neg at h6
  cases hst : step <;> rw [hst] at h <;> try exact absurd rfl h
  rename_i w v
  refine ⟨by simpa using h1, h2.1, by simpa using h3, by simpa using h4,
    h5.1, h5.2, start, w, v, ?_⟩
  rw [h6.1, h6.2]

theorem store_classifier_guards_witness :
    isLegalStore ctxMS siMS ≠ LegalStoreKind.None ∧
    siMS.volatile = false ∧
    (siMS.ordering = .notAtomic ∨ siMS.ordering = .unordered) ∧
    siMS.sizeInBits % 8 = 0 :=
  ⟨by decide, (store_classifier_guards ctxMS siMS (by decide)).1,
   (store_classifier_guards ctxMS siMS (by decide)).2.1,
   (store_classifier_guards ctxMS siMS (by decide)).2.2.2.2.1⟩

/-- C7: every fill call the countable-loop store merger emits comes from a
chain whose summed store size equals the absolute value of the constant
stride of the chain's head recurrence; chains failing this test are
skipped and produce no call. -/
theorem chain_merge_requires_contiguity (env : LIREnv) (st : IRState)
    (sl : List MSStore) (c : MemsetCall)
    (hc : c ∈ (processLoopStores env st sl).1.memsetCalls) :
    c ∈ st.memsetCalls ∨ (c.storeSize : Int) = (getStoreStride c.ev).natAbs := by
  unfold processLoopStores at hc
  dsimp only at hc
  refine foldl_preserve
    (fun acc : MergeAcc => ∀ x ∈ acc.st.memsetCalls,
      x ∈ st.memsetCalls ∨ (x.storeSize : Int) = (getStoreStride x.ev).natAbs)
    _ _ _ (fun x hx => Or.inl hx) ?_ c hc
  intro t a hP
  exact mergeStep_calls_mem env sl _ st.memsetCalls t a hP

theorem chain_merge_requires_contiguity_witness :
    (⟨evA, 4, [7]⟩ : MemsetCall) ∈
      (processLoopStores envOK st0 slA).1.memsetCalls ∧
    ((4 : Nat) : Int) = (getStoreStride evA).natAbs :=
  ⟨by decide,
   (chain_merge_requires_contiguity envOK st0 slA ⟨evA, 4, [7]⟩
     (by decide)).resolve_left (by decide)⟩

/-- C8: the countable-loop rewriter runs only when the backedge-taken count
is a loop-invariant symbolic expression — with `invariantBTC` false the
driver's result does not depend on the per-block rewriter at all — and it
returns unchanged, attempting no rewrite, when that count is statically the
constant zero. -/
theorem countable_loop_gating (d : DriverInput) (env : LIREnv)
    (f g : Nat → IRState → IRState × Bool) (st : IRState)
    (h : d.invariantBTC = false) :
    runOnLoop d env f st = runOnLoop d env g st ∧
    (env.becount.isConstZero = true →
      runOnCountableLoop env f st = (st, false)) := by
  constructor
  · unfold runOnLoop
    simp [h]
  · intro hz
    unfold runOnCountableLoop
    rw [if_pos hz]

theorem countable_loop_gating_witness :
    dNoBTC.invariantBTC = false ∧
    envZero.becount.isConstZero = true ∧
    runOnLoop dNoBTC envOK (fun _ s => (s, true)) st0 =
      runOnLoop dNoBTC envOK (fun _ s => (s, false)) st0 ∧
    runOnCountableLoop envZero (fun _ s => (s, true)) st0 = (st0, false) :=
  ⟨rfl, by decide,
   (countable_loop_gating dNoBTC envOK (fun _ s => (s, true))
     (fun _ s => (s, false)) st0 rfl).1,
   (countable_loop_gating dNoBTC envZero (fun _ s => (s, true))
     (fun _ s => (s, false)) st0 rfl).2 (by decide)⟩

/-- C9: the find-first-set matcher rejects every loop whose shift
recurrence is an arithmetic (signed) right shift when the seed entering
the loop cannot be proven non-negative: the detector fails and no bit-scan
rewrite is emitted for such a loop. -/
theorem ffs_ashr_requires_nonneg (numBackEdges numBlocks : Nat)
    (s : FFSLoopShape) (aux : FFSAux) (h1 : s.shiftOp = .ashr)
    (h2 : s.initXNonNeg = false) :
    detectShiftUntilZeroIdiom s = none ∧
    recognizeAndInsertFFS numBackEdges numBlocks s aux = ([], false) := by
  have hd : detectShiftUntilZeroIdiom s = none := by
    unfold detectShiftUntilZeroIdiom
    simp [h1, h2]
  refine ⟨hd, ?_⟩
  unfold recognizeAndInsertFFS
  rw [hd]
  simp

theorem ffs_ashr_requires_nonneg_witness :
    sAshr.shiftOp = .ashr ∧ sAshr.initXNonNeg = false ∧
    (detectShiftUntilZeroIdiom sAshr = none ∧
     recognizeAndInsertFFS 1 1 sAshr auxOK = ([], false)) :=
  ⟨rfl, rfl, ffs_ashr_requires_nonneg 1 1 sAshr auxOK rfl rfl⟩

/-- C10: for every countable loop in which some block may throw, the
countable-loop rewriter makes no change at all and reports "unchanged",
whatever the per-block rewriter would have done (so no fill, pattern-fill,
copy, or memset-widening rewrite fires even when legal candidates
exist). -/
theorem countable_mayThrow_no_change (env : LIREnv)
    (runBlock : Nat → IRState → IRState × Bool) (st : IRState)
    (h : env.anyBlockMayThrow = true) :
    runOnCountableLoop env runBlock st = (st, false) := by
  unfold runOnCountableLoop
  rw [h]
  simp

theorem countable_mayThrow_no_change_witness :
    envThrow.anyBlockMayThrow = true ∧
    runOnCountableLoop envThrow
      (fun _ s => ({ s with deletedInsts := s.deletedInsts ++ [99] }, true))
      st0 = (st0, false) :=
  ⟨rfl,
   countable_mayThrow_no_change envThrow
     (fun _ s => ({ s with deletedInsts := s.deletedInsts ++ [99] }, true))
     st0 rfl⟩

end LoopIdiom
